import Mathlib

/-!
Verification of the `release-crawler` repository core against its
natural-language specification.

The development shallowly embeds the two core subsystems:

* the bounded-concurrency crawl orchestrator of the crawler binary
  (`fetchArticlesConcurrently`, `scrapeFullArticle`), namespace `Crawler`;
* the relevance query compiler and result cache of the web server
  (`buildEnhancedQuery`, `buildPhraseQuery`, `getCachedResult`,
  `cacheResult`, `searchElasticsearch`), namespace `Server`.

Conventions of the embedding:

* Go `string` is Lean `String`; character-level Go `strings` helpers
  (`HasPrefix`, `HasSuffix`, `Trim`, `TrimSpace`, `Contains`, `Split`)
  are re-implemented structurally over `List Char`.
* Durations are natural numbers; the crawler's delays are in
  milliseconds, the server cache's timestamps in seconds
  (TTL `5*time.Minute` = 300 s).
* A Go `map[string]V` is an association list `List (String × V)` whose
  assignment replaces any previous binding of the key.
* Fallible Go calls (`scrapeFullArticle`, the HTTP post, JSON decoding)
  are values of `Except`/sum types supplied as inputs to the embedded
  control flow.
-/

namespace Crawler

/-- Article record produced by the crawler (`type Article`, crawler source). -/
structure Article where
  id : String
  title : String
  body : String
  url : String
  createdAt : String
  updatedAt : String
deriving DecidableEq, Repr

/-- `type FetchResult` of the crawler: one result per target URL. -/
structure FetchResult where
  article : Option Article
  error : Option String
  url : String
  retries : Nat
deriving DecidableEq, Repr

/--
The retry loop body of `fetchArticlesConcurrently`
(`for attempt := 0; attempt <= config.MaxRetries; attempt++ { ... }`):
`outcome k` is the result of `scrapeFullArticle` on attempt `k`;
on the first success the loop returns a success result recording the
attempt index, otherwise it remembers the last error; when the loop
exhausts `maxRetries+1` attempts it emits the failure result carrying
`lastErr` and `Retries: config.MaxRetries`.  `remaining` is the number
of loop iterations still allowed, `attempt` the current index. -/
def retryGo (outcome : Nat → Except String Article) (url : String) (maxRetries : Nat) :
    Nat → Nat → Option String → FetchResult
  | 0, _, lastErr => { article := none, error := lastErr, url := url, retries := maxRetries }
  | r + 1, attempt, lastErr =>
    match outcome attempt with
    | .ok a => { article := some a, error := none, url := url, retries := attempt }
    | .error e => retryGo outcome url maxRetries r (attempt + 1) (some e)

/-- One target's full retry loop: attempts `0, 1, ..., maxRetries`. -/
def fetchWithRetry (outcome : Nat → Except String Article) (url : String)
    (maxRetries : Nat) : FetchResult :=
  retryGo outcome url maxRetries (maxRetries + 1) 0 none

/-- Number of calls to `scrapeFullArticle` the loop performs before
returning, with `remaining` iterations allowed from index `attempt`. -/
def attemptsGo (outcome : Nat → Except String Article) : Nat → Nat → Nat
  | 0, _ => 0
  | r + 1, attempt =>
    match outcome attempt with
    | .ok _ => 1
    | .error _ => 1 + attemptsGo outcome r (attempt + 1)

/-- Total number of fetch attempts one target's retry loop performs. -/
def attemptsMade (outcome : Nat → Except String Article) (maxRetries : Nat) : Nat :=
  attemptsGo outcome (maxRetries + 1) 0

/--
Delay (milliseconds) slept before the fetch of attempt `k`, from the
body of the retry loop: for `attempt > 0` the code sleeps
`time.Duration(attempt) * config.FetchDelay`; for `attempt == 0` it
sleeps `config.FetchDelay + time.Duration(rand.Intn(300))*time.Millisecond`,
where `jitter < 300` is the drawn random value. -/
def preFetchDelay (fetchDelay jitter : Nat) (attempt : Nat) : Nat :=
  if attempt = 0 then fetchDelay + jitter else attempt * fetchDelay

/-!
Admission-gate model of `fetchArticlesConcurrently`.

The orchestrator spawns one goroutine per target URL; each goroutine
first performs `semaphore <- struct{}{}` on a channel of capacity
`config.FetchConcurrency` (blocking while the buffer is full, i.e. while
`N` goroutines already hold a slot), runs all its fetch attempts, and
releases the slot with `<-semaphore` when it finishes.  We model each
goroutine's lifecycle by a phase and the whole run by a transition
system: `acquire` is the (guarded) channel send, `release` the receive.
Fetch attempts of a target happen only while its goroutine is
`inFlight`, so `countInFlight` is the number of simultaneously
in-flight fetch workers.
-/

/-- Lifecycle phase of one target's goroutine. -/
inductive Phase where
  | pending
  | inFlight
  | done
deriving DecidableEq, Repr

/-- Number of goroutines currently holding a semaphore slot. -/
def countInFlight (ps : List Phase) : Nat :=
  ps.countP (fun p => p == Phase.inFlight)

/-- One scheduler step of the crawl run with semaphore capacity `N`:
a pending goroutine may acquire a slot only while fewer than `N` are
held (the channel send blocks otherwise); an in-flight goroutine may
finish and release its slot. -/
inductive SemStep (N : Nat) : List Phase → List Phase → Prop where
  | acquire (ps : List Phase) (i : Nat) (hi : i < ps.length)
      (hp : ps.get ⟨i, hi⟩ = Phase.pending)
      (hn : countInFlight ps < N) :
      SemStep N ps (ps.set i Phase.inFlight)
  | release (ps : List Phase) (i : Nat) (hi : i < ps.length)
      (hp : ps.get ⟨i, hi⟩ = Phase.inFlight) :
      SemStep N ps (ps.set i Phase.done)

/-- States reachable by scheduler steps. -/
inductive Reach (N : Nat) : List Phase → List Phase → Prop where
  | refl (ps : List Phase) : Reach N ps ps
  | tail {a b c : List Phase} : Reach N a b → SemStep N b c → Reach N a c

/-- Initial state of a crawl over `targets`: every goroutine pending. -/
def initPhases (targets : List String) : List Phase :=
  targets.map (fun _ => Phase.pending)

end Crawler

namespace GoStr

/-- Go `strings.HasPrefix`. -/
def hasPrefix (s pre : String) : Bool :=
  pre.toList.isPrefixOf s.toList

/-- Go `strings.HasSuffix`. -/
def hasSuffix (s suf : String) : Bool :=
  suf.toList.isSuffixOf s.toList

/-- Helper for Go `strings.Trim` with a one-character cutset: drop from
both ends every character equal to `c`. -/
def trimCharList (c : Char) (l : List Char) : List Char :=
  ((l.dropWhile (fun x => x == c)).reverse.dropWhile (fun x => x == c)).reverse

/-- Go `strings.Trim(s, string(c))` for a one-character cutset. -/
def trimChar (s : String) (c : Char) : String :=
  String.mk (trimCharList c s.toList)

/-- Go `strings.TrimSpace`. -/
def trimSpace (s : String) : String :=
  String.mk
    (((s.toList.dropWhile Char.isWhitespace).reverse.dropWhile Char.isWhitespace).reverse)

/-- Substring test on character lists (Go `strings.Contains`). -/
def containsList (sub : List Char) : List Char → Bool
  | [] => sub.isPrefixOf []
  | c :: t => sub.isPrefixOf (c :: t) || containsList sub t

/-- Go `strings.Contains`. -/
def contains (s sub : String) : Bool :=
  containsList sub.toList s.toList

/-- Split on a separator character (Go `strings.Split(s, "\n")` for a
one-character separator). -/
def splitOnCharList (c : Char) : List Char → List (List Char)
  | [] => [[]]
  | x :: t =>
    match splitOnCharList c t with
    | [] => [[x]]
    | h :: r => if x == c then [] :: h :: r else (x :: h) :: r

/-- Go `strings.Split(s, string(c))`. -/
def splitOnChar (s : String) (c : Char) : List String :=
  (splitOnCharList c s.toList).map String.mk

end GoStr

namespace Crawler

/-!
Shallow embedding of `scrapeFullArticle`.

The colly collector is the external scraping collaborator: it fires the
registered `OnHTML` callbacks on the matching DOM fragments.  `PageData`
records, per registered selector group, the candidate values those
callbacks would receive, in firing order; the `.Visit` error and the
`OnError` capture are the two failure channels.  Body candidates are the
`cleanHTML` images of the matched fragments (HTML-to-text rendering is
out of scope).  `scrapeFullArticle` then reproduces the collector's
sequential candidate selection and the final validation gate of the
source function.
-/

/-- Candidate data the scraping collaborator yields for one page. -/
structure PageData where
  /-- Texts of `header.article-header h3` matches. -/
  headerTexts : List String
  /-- `(style attribute, text)` of `h1, .article-title,
  [data-testid='article-title']` matches. -/
  fallbackTitles : List (String × String)
  /-- `cleanHTML` output of `.article-body` matches. -/
  bodyCandidates : List String
  /-- `cleanHTML` output of the fallback body selector matches. -/
  fallbackBodies : List String
  /-- `datetime` attributes of `time[datetime], .article-created-at,
  .article-updated-at` matches. -/
  timestamps : List String
  /-- Error returned by `c.Visit`, if any. -/
  visitError : Option String
  /-- Error captured by the `OnError` callback, if any. -/
  scrapeError : Option String

/-- The per-line filter of the `header.article-header h3` callback: a
line is taken as title when it is non-empty, carries no metadata
markers, and is not one of the placeholder banners. -/
def headerLineOk (line : String) : Bool :=
  line ≠ "" &&
  !(GoStr.contains line "Published") &&
  !(GoStr.contains line "Last Updated") &&
  !(GoStr.contains line "•") &&
  line ≠ "How can we help?" &&
  line ≠ "Knowledge Base"

/-- First qualifying line, trimmed, of a list of lines; `""` if none. -/
def firstOkLine : List String → String
  | [] => ""
  | l :: t =>
    let line := GoStr.trimSpace l
    if headerLineOk line then line else firstOkLine t

/-- Title extracted from one `header.article-header h3` text. -/
def titleFromHeader (text : String) : String :=
  let fullText := GoStr.trimSpace text
  if fullText = "" then "" else firstOkLine (GoStr.splitOnChar fullText '\n')

/-- Title after all header callbacks ran (each only fills a still-empty
title). -/
def titleFromHeaders : List String → String
  | [] => ""
  | t :: rest =>
    let candidate := titleFromHeader t
    if candidate = "" then titleFromHeaders rest else candidate

/-- The fallback title callback on `h1, .article-title, ...`: skip
hidden elements and placeholder banners. -/
def titleFromFallbacks : List (String × String) → String
  | [] => ""
  | (style, text) :: rest =>
    if !(GoStr.contains style "display: none") then
      let title := GoStr.trimSpace text
      if title ≠ "" && title ≠ "How can we help?" && title ≠ "Knowledge Base" then title
      else titleFromFallbacks rest
    else titleFromFallbacks rest

/-- Title selection over the whole page: header candidates first, the
fallback selectors only while the title is still empty. -/
def selectTitle (page : PageData) : String :=
  let t := titleFromHeaders page.headerTexts
  if t = "" then titleFromFallbacks page.fallbackTitles else t

/-- Body selection: each body callback assigns only while the body is
still empty, so the final body is the first non-empty candidate of the
primary then the fallback selectors (or `""`). -/
def selectBody (page : PageData) : String :=
  match (page.bodyCandidates ++ page.fallbackBodies).filter (fun b => b ≠ "") with
  | [] => ""
  | b :: _ => b

/-- Metadata callback: the first non-empty `datetime` fixes `CreatedAt`,
every non-empty one overwrites `UpdatedAt`. -/
def selectTimes : List String → (String × String)
  | [] => ("", "")
  | d :: rest =>
    if d ≠ "" then
      let rec lastNonEmpty (cur : String) : List String → String
        | [] => cur
        | x :: xs => lastNonEmpty (if x ≠ "" then x else cur) xs
      (d, lastNonEmpty d rest)
    else selectTimes rest

/-- The regexp `/articles/(\d+)`: digits of the leftmost occurrence of
`/articles/` followed by at least one digit; `""` when no match. -/
def extractArticleID : List Char → String
  | [] => ""
  | c :: t =>
    let l := c :: t
    if "/articles/".toList.isPrefixOf l && ((l.drop 10).headD ' ').isDigit then
      String.mk ((l.drop 10).takeWhile Char.isDigit)
    else extractArticleID t

/-- `scrapeFullArticle(articleURL, timeout)`: candidate selection plus
the final validation gate; `nowStr` is `time.Now().UTC().Format(...)`
at fetch completion. -/
def scrapeFullArticle (articleURL : String) (page : PageData) (nowStr : String) :
    Except String Article :=
  match page.visitError with
  | some e => .error ("error visiting page: " ++ e)
  | none =>
    match page.scrapeError with
    | some e => .error ("scraping error: " ++ e)
    | none =>
      let title := selectTitle page
      let body := selectBody page
      if title = "" || title = "How can we help?" || title = "Knowledge Base" then
        .error "no meaningful title found on page"
      else if body = "" then
        .error "no content found on page"
      else
        let times := selectTimes page.timestamps
        .ok { id := extractArticleID articleURL.toList
              title := title
              body := body
              url := articleURL
              createdAt := if times.1 = "" then nowStr else times.1
              updatedAt := if times.2 = "" then nowStr else times.2 }

end Crawler

namespace Server

/-- JSON-like values built by the query compiler
(`map[string]interface{}` literals).  Numeric literals are rationals so
that the source's `0.5` and `1.2` are exact. -/
inductive JVal where
  | s (v : String)
  | n (v : ℚ)
  | arr (vs : List JVal)
  | obj (fields : List (String × JVal))

/-- Field lookup in an object value. -/
def jGet (v : JVal) (key : String) : Option JVal :=
  match v with
  | .obj fields =>
    match fields.find? (fun f => f.1 == key) with
    | some f => some f.2
    | none => none
  | _ => none

/-- Lookup along a path of object keys. -/
def jPath (v : JVal) : List String → Option JVal
  | [] => some v
  | k :: rest =>
    match jGet v k with
    | some w => jPath w rest
    | none => none

/-- `buildPhraseQuery(query, from, size)` of the web server: strict
phrase request, title weight 3 / body weight 1, sorted by score then by
`updated_at` descending, highlighting both fields. -/
def buildPhraseQuery (query : String) (frm size : Int) : JVal :=
  .obj
    [("query", .obj
        [("multi_match", .obj
            [("query", .s query),
             ("fields", .arr [.s "title^3", .s "body^1"]),
             ("type", .s "phrase")])]),
     ("from", .n frm),
     ("size", .n size),
     ("sort", .arr
        [.obj [("_score", .obj [("order", .s "desc")])],
         .obj [("updated_at", .obj [("order", .s "desc")])]]),
     ("highlight", .obj
        [("fields", .obj
            [("title", .obj []),
             ("body", .obj [])]),
         ("pre_tags", .arr [.s "<mark>"]),
         ("post_tags", .arr [.s "</mark>"])])]

/-- The non-phrase branch of `buildEnhancedQuery`: function-scored
blend of exact-phrase, fuzzy and phrase-prefix strategies under a
`should` with `minimum_should_match` 1, multiplied by a 30-day Gaussian
recency decay. -/
def buildBlendedQuery (query : String) (frm size : Int) : JVal :=
  .obj
    [("query", .obj
        [("function_score", .obj
            [("query", .obj
                [("bool", .obj
                    [("should", .arr
                        [.obj [("multi_match", .obj
                            [("query", .s query),
                             ("fields", .arr [.s "title^5", .s "body^2"]),
                             ("type", .s "phrase"),
                             ("boost", .n 10)])],
                         .obj [("multi_match", .obj
                            [("query", .s query),
                             ("fields", .arr [.s "title^3", .s "body^1"]),
                             ("fuzziness", .s "AUTO"),
                             ("boost", .n 5)])],
                         .obj [("multi_match", .obj
                            [("query", .s query),
                             ("fields", .arr [.s "title^2", .s "body^1"]),
                             ("type", .s "phrase_prefix"),
                             ("boost", .n 3)])]]),
                     ("minimum_should_match", .n 1)])]),
             ("boost_mode", .s "multiply"),
             ("functions", .arr
                [.obj
                   [("gauss", .obj
                       [("updated_at", .obj
                           [("scale", .s "30d"),
                            ("decay", .n ((5 : ℚ) / 10))])]),
                    ("weight", .n ((12 : ℚ) / 10))]])])]),
     ("from", .n frm),
     ("size", .n size),
     ("sort", .arr
        [.obj [("_score", .obj [("order", .s "desc")])]]),
     ("highlight", .obj
        [("fields", .obj
            [("title", .obj [("fragment_size", .n 150)]),
             ("body", .obj [("fragment_size", .n 300)])]),
         ("pre_tags", .arr [.s "<mark>"]),
         ("post_tags", .arr [.s "</mark>"])])]

/-- Phrase detection of `buildEnhancedQuery`:
`strings.HasPrefix(query, "\"") && strings.HasSuffix(query, "\"")`. -/
def isPhraseQuery (query : String) : Bool :=
  GoStr.hasPrefix query "\"" && GoStr.hasSuffix query "\""

/-- `buildEnhancedQuery(query, from, size)`: quoted queries are trimmed
of double quotes (`strings.Trim(query, "\"")`) and compiled as strict
phrase requests, everything else as the blended request. -/
def buildEnhancedQuery (query : String) (frm size : Int) : JVal :=
  if isPhraseQuery query then
    buildPhraseQuery (GoStr.trimChar query '"') frm size
  else
    buildBlendedQuery query frm size

end Server

namespace Server

/-- `type Article` of the web server (the `_score` float of a hit and
the JSON tags carry no behaviour and are elided). -/
structure Article where
  id : String
  title : String
  body : String
  createdAt : String
  updatedAt : String
  htmlURL : String
  sectionID : Int
deriving DecidableEq, Repr

/-- The fields of `type SearchResult` that `searchElasticsearch`
populates and caches (`Articles`, `Total`); the remaining
presentation-only fields stay zero-valued on this path and are
elided. -/
structure SearchResult where
  articles : List Article
  total : Int
deriving DecidableEq, Repr

/-- `type CacheEntry`; timestamps are seconds. -/
structure CacheEntry where
  result : SearchResult
  timestamp : Nat
deriving DecidableEq, Repr

/-- The `map[string]CacheEntry` behind `searchCache`, as an
association list (assignment replaces the previous binding). -/
abbrev Cache := List (String × CacheEntry)

/-- Cache TTL: `5*time.Minute`, in seconds. -/
def cacheTTL : Nat := 5 * 60

/-- Go map read `searchCache.cache[key]`. -/
def cacheFind (c : Cache) (key : String) : Option CacheEntry :=
  match c.find? (fun p => p.1 == key) with
  | some p => some p.2
  | none => none

/-- Go map `delete(searchCache.cache, key)`. -/
def cacheDelete (c : Cache) (key : String) : Cache :=
  c.filter (fun p => p.1 != key)

/-- Go map assignment `searchCache.cache[key] = e`. -/
def cacheInsert (c : Cache) (key : String) (e : CacheEntry) : Cache :=
  (key, e) :: c.filter (fun p => p.1 != key)

/-- `getCachedResult(key)` at time `now`: a missing key is a miss; an
entry older than the TTL is lazily deleted and reported as a miss;
otherwise the stored result is returned.  The pair carries the possibly
updated map. -/
def getCachedResult (c : Cache) (now : Nat) (key : String) :
    Option SearchResult × Cache :=
  match cacheFind c key with
  | none => (none, c)
  | some entry =>
    if now - entry.timestamp > cacheTTL then (none, cacheDelete c key)
    else (some entry.result, c)

/-- `cacheResult(key, result)` at time `now`: when the map holds more
than 1000 entries, first sweep out every entry older than the TTL, then
insert the new entry stamped `now`. -/
def cacheResult (c : Cache) (now : Nat) (key : String) (result : SearchResult) : Cache :=
  let swept :=
    if c.length > 1000 then
      c.filter (fun p => !(now - p.2.timestamp > cacheTTL : Bool))
    else c
  cacheInsert swept key { result := result, timestamp := now }

/-- The cache key of `searchElasticsearch`:
`md5.Sum` of `fmt.Sprintf("%s-%d-%d", query, from, size)`.  The hash is
modelled by the formatted string itself (a deterministic function of
it; only determinism of the fingerprint is observable). -/
def cacheKey (query : String) (frm size : Int) : String :=
  query ++ "-" ++ toString frm ++ "-" ++ toString size

/-- Shape the web server decodes the engine's response body into
(`type SearchResponse`); unknown JSON fields of an engine reply are
ignored and missing fields decode to zero values. -/
structure SearchResponse where
  totalValue : Int
  sources : List Article
deriving DecidableEq, Repr

/-- Behaviour of the one `client.Post` call to the engine:
either the HTTP request itself fails, or a response arrives with some
status code and a body on which `json.Decoder.Decode` either fails or
yields a `SearchResponse`. -/
inductive EngineOutcome where
  | postError (e : String)
  | reply (status : Nat) (decoded : Except String SearchResponse)

/-- `searchElasticsearch(query, from, size)` at time `now`, with the
engine's behaviour given by `engine`: cache lookup first; on a miss,
post the compiled query, decode, cache and return.  Note the source
never inspects the reply's status code. -/
def searchElasticsearch (c : Cache) (now : Nat) (engine : EngineOutcome)
    (query : String) (frm size : Int) :
    Except String (List Article × Int) × Cache :=
  let key := cacheKey query frm size
  match getCachedResult c now key with
  | (some cached, c1) => (.ok (cached.articles, cached.total), c1)
  | (none, c1) =>
    match engine with
    | .postError e => (.error e, c1)
    | .reply _ decoded =>
      match decoded with
      | .error e => (.error e, c1)
      | .ok resp =>
        let articles := resp.sources
        let result : SearchResult := { articles := articles, total := resp.totalValue }
        (.ok (articles, resp.totalValue), cacheResult c1 now key result)

end Server

/-! ## Helper lemmas for the retry loop -/

namespace Crawler

/-- The loop can make at most one attempt per allowed iteration. -/
theorem attemptsGo_le (outcome : Nat → Except String Article) :
    ∀ (r a : Nat), attemptsGo outcome r a ≤ r := by
  intro r
  induction r with
  | zero => intro a; simp [attemptsGo]
  | succ n ih =>
    intro a
    simp only [attemptsGo]
    cases outcome a with
    | ok _ =>
      show 1 ≤ n + 1
      omega
    | error _ =>
      show 1 + attemptsGo outcome n (a + 1) ≤ n + 1
      have := ih (a + 1)
      omega

/-- If every attempt in the remaining window fails, the loop returns the
failure result carrying the error of the window's last attempt. -/
theorem retryGo_all_fail (outcome : Nat → Except String Article) (url : String)
    (maxRetries : Nat) :
    ∀ (r a : Nat) (lastErr : Option String) (e : String),
      (∀ k, a ≤ k → k < a + (r + 1) → ∃ e2, outcome k = .error e2) →
      outcome (a + r) = .error e →
      retryGo outcome url maxRetries (r + 1) a lastErr =
        { article := none, error := some e, url := url, retries := maxRetries } := by
  intro r
  induction r with
  | zero =>
    intro a lastErr e _ hlast
    simp only [Nat.add_zero] at hlast
    simp [retryGo, hlast]
  | succ n ih =>
    intro a lastErr e hall hlast
    obtain ⟨e0, he0⟩ := hall a (Nat.le_refl a) (by omega)
    simp only [retryGo, he0]
    exact ih (a + 1) (some e0) e
      (fun k hk1 hk2 => hall k (by omega) (by omega))
      (by rw [show a + 1 + n = a + (n + 1) by omega]; exact hlast)

/-- If every attempt in the remaining window fails, the loop performs
exactly one attempt per allowed iteration. -/
theorem attemptsGo_all_fail (outcome : Nat → Except String Article) :
    ∀ (r a : Nat),
      (∀ k, a ≤ k → k < a + r → ∃ e2, outcome k = .error e2) →
      attemptsGo outcome r a = r := by
  intro r
  induction r with
  | zero => intro a _; simp [attemptsGo]
  | succ n ih =>
    intro a hall
    obtain ⟨e0, he0⟩ := hall a (Nat.le_refl a) (by omega)
    simp only [attemptsGo, he0]
    rw [ih (a + 1) (fun k hk1 hk2 => hall k (by omega) (by omega))]
    omega

end Crawler

/-- **C2.** For every target, the retry loop of
`fetchArticlesConcurrently` makes at most `maxRetries + 1` fetch
attempts; and when every attempt fails, the single `FetchResult`
emitted for the target is a failure carrying the error observed on the
last attempt (attempt `maxRetries`) and `Retries = maxRetries`. -/
theorem fetch_retry_budget_and_last_error
    (outcome : Nat → Except String Crawler.Article) (url : String)
    (maxRetries : Nat) (e : String) :
    Crawler.attemptsMade outcome maxRetries ≤ maxRetries + 1 ∧
    ((∀ k, k ≤ maxRetries → ∃ e2, outcome k = .error e2) →
      outcome maxRetries = .error e →
      Crawler.fetchWithRetry outcome url maxRetries =
        { article := none, error := some e, url := url, retries := maxRetries }) := by
  constructor
  · exact Crawler.attemptsGo_le outcome (maxRetries + 1) 0
  · intro hall hlast
    exact Crawler.retryGo_all_fail outcome url maxRetries maxRetries 0 none e
      (fun k _ hk2 => hall k (by omega)) (by simpa using hlast)

/-- Witness for C2: with `maxRetries = 2` and every attempt `k` failing
with error `"e" ++ toString k`, the loop makes at most 3 attempts and
the emitted failure carries the last error `"e2"`. -/
theorem fetch_retry_budget_and_last_error_witness :
    Crawler.attemptsMade (fun k => .error ("e" ++ toString k)) 2 ≤ 3 ∧
    Crawler.fetchWithRetry (fun k => .error ("e" ++ toString k)) "u" 2 =
      { article := none, error := some "e2", url := "u", retries := 2 } := by
  have h := fetch_retry_budget_and_last_error
    (fun k => .error ("e" ++ toString k)) "u" 2 "e2"
  exact ⟨h.1, h.2 (fun k _ => ⟨"e" ++ toString k, rfl⟩) rfl⟩

/-- **C3, counterexample.** The claim says a fixed courtesy delay plus
the drawn random jitter precedes *every* attempt; but for retry attempt
1 with `FetchDelay = 100` ms and jitter draw `200` ms the code sleeps
exactly `1 * 100 = 100` ms — the jitter is not added. -/
theorem retry_delay_jitter_counterexample :
    Crawler.preFetchDelay 100 200 1 = 100 ∧
    ¬ Crawler.preFetchDelay 100 200 1 = 100 + 200 := by
  decide

/-- **C3, amended.** The courtesy delay plus the bounded random jitter
(`rand.Intn(300)` ms) is applied only before attempt 0; the delay
before retry attempt `k ≥ 1` is exactly `k × baseDelay`, with no
jitter (linear, not exponential, backoff). -/
theorem retry_delay_policy (d j k : Nat) :
    Crawler.preFetchDelay d j 0 = d + j ∧
    (1 ≤ k → Crawler.preFetchDelay d j k = k * d) ∧
    (j < 300 → Crawler.preFetchDelay d j 0 < d + 300) := by
  refine ⟨by simp [Crawler.preFetchDelay], fun hk => ?_, fun hj => ?_⟩
  · have : k ≠ 0 := by omega
    simp [Crawler.preFetchDelay, this]
  · simp [Crawler.preFetchDelay]; omega

/-- Witness for the amended C3 at `baseDelay = 200` ms, jitter `250` ms,
retry attempt `2`. -/
theorem retry_delay_policy_witness :
    Crawler.preFetchDelay 200 250 0 = 200 + 250 ∧
    Crawler.preFetchDelay 200 250 2 = 2 * 200 ∧
    Crawler.preFetchDelay 200 250 0 < 200 + 300 := by
  have h := retry_delay_policy 200 250 2
  exact ⟨h.1, h.2.1 (by omega), h.2.2 (by omega)⟩

/-- **C9, counterexample.** A malformed target URL makes `c.Visit` fail
with the same non-retryable error on every attempt, yet with
`MaxRetries = 3` the loop performs 4 attempts, not 1: the code has no
terminal failure classification and retries every error. -/
theorem terminal_error_retried_counterexample :
    Crawler.attemptsMade
      (fun _ => .error "error visiting page: missing protocol scheme") 3 = 4 ∧
    ¬ Crawler.attemptsMade
      (fun _ => .error "error visiting page: missing protocol scheme") 3 = 1 ∧
    Crawler.fetchWithRetry
      (fun _ => .error "error visiting page: missing protocol scheme") "://bad" 3 =
      { article := none,
        error := some "error visiting page: missing protocol scheme",
        url := "://bad", retries := 3 } := by
  refine ⟨by decide, by decide, by decide⟩

/-- **C9, amended.** The retry loop classifies no error as terminal:
every failing target — including one whose identifier is malformed and
fails identically on each attempt — consumes the full retry budget,
making exactly `maxRetries + 1` attempts before its failure is
emitted. -/
theorem all_failures_consume_retry_budget (maxRetries : Nat) (url e : String) :
    Crawler.fetchWithRetry (fun _ => .error e) url maxRetries =
      { article := none, error := some e, url := url, retries := maxRetries } ∧
    Crawler.attemptsMade (fun _ => .error e) maxRetries = maxRetries + 1 := by
  constructor
  · exact Crawler.retryGo_all_fail (fun _ => .error e) url maxRetries maxRetries 0 none e
      (fun k _ _ => ⟨e, rfl⟩) rfl
  · exact Crawler.attemptsGo_all_fail (fun _ => .error e) (maxRetries + 1) 0
      (fun k _ _ => ⟨e, rfl⟩)

/-! ## Cache claims -/

namespace Server

/-- Looking up the key just inserted finds the fresh entry. -/
theorem cacheFind_insert (c : Cache) (key : String) (e : CacheEntry) :
    cacheFind (cacheInsert c key e) key = some e := by
  simp [cacheFind, cacheInsert, List.find?]

/-- The map returned by a lookup never contains an entry the map did
not already hold (a lookup can only lazily delete). -/
theorem getCachedResult_snd_subset (c : Cache) (now : Nat) (key : String) :
    ∀ p, p ∈ (getCachedResult c now key).2 → p ∈ c := by
  intro p hp
  unfold getCachedResult at hp
  cases hf : cacheFind c key with
  | none => simpa [hf] using hp
  | some entry =>
    rw [hf] at hp
    by_cases hexp : now - entry.timestamp > cacheTTL
    · simp only [if_pos hexp] at hp
      exact (List.mem_filter.mp hp).1
    · simpa [if_neg hexp] using hp

end Server

/-- **C6.** Cache round-trip and expiry: a `cacheResult(k, r)` at time
`t` followed by a `getCachedResult(k)` at time `t' ≥ t` returns `r`
unchanged while the age is within the 5-minute TTL, and a miss strictly
after the TTL window. -/
theorem cache_roundtrip_and_expiry (c : Server.Cache) (k : String)
    (r : Server.SearchResult) (t t2 : Nat) (h : t ≤ t2) :
    (t2 - t ≤ Server.cacheTTL →
      (Server.getCachedResult (Server.cacheResult c t k r) t2 k).1 = some r) ∧
    (t2 - t > Server.cacheTTL →
      (Server.getCachedResult (Server.cacheResult c t k r) t2 k).1 = none) := by
  have hfind : Server.cacheFind (Server.cacheResult c t k r) k =
      some { result := r, timestamp := t } :=
    Server.cacheFind_insert _ k _
  constructor
  · intro hle
    simp [Server.getCachedResult, hfind, Nat.not_lt.mpr hle]
  · intro hgt
    simp [Server.getCachedResult, hfind, hgt]

/-- Witness for C6: store at `t = 10`, hits at `t' = 310`
(age exactly the TTL), misses at `t' = 311`. -/
theorem cache_roundtrip_and_expiry_witness :
    (Server.getCachedResult
      (Server.cacheResult [] 10 "k" { articles := [], total := 7 }) 310 "k").1 =
      some { articles := [], total := 7 } ∧
    (Server.getCachedResult
      (Server.cacheResult [] 10 "k" { articles := [], total := 7 }) 311 "k").1 = none := by
  exact ⟨(cache_roundtrip_and_expiry [] "k" _ 10 310 (by omega)).1 (by decide),
         (cache_roundtrip_and_expiry [] "k" _ 10 311 (by omega)).2 (by decide)⟩

/-- **C7.** When a store finds more than 1000 entries, the sweep-then-
insert is exact: an entry under another key survives if and only if it
was present and its age does not exceed the TTL (fresh entries are
never evicted by this path, expired ones always are), and the new entry
is present under its key. -/
theorem cache_sweep_exact (c : Server.Cache) (now : Nat) (k : String)
    (r : Server.SearchResult) (hlen : c.length > 1000) :
    ∀ (k2 : String) (e : Server.CacheEntry),
      ((k2, e) ∈ Server.cacheResult c now k r ↔
        ((k2 = k ∧ e = { result := r, timestamp := now }) ∨
         ((k2, e) ∈ c ∧ k2 ≠ k ∧ now - e.timestamp ≤ Server.cacheTTL))) := by
  intro k2 e
  simp only [Server.cacheResult, Server.cacheInsert, if_pos hlen]
  simp only [List.mem_cons, List.mem_filter, Prod.mk.injEq, bne_iff_ne, ne_eq,
    Bool.not_eq_true', decide_eq_false_iff_not, Nat.not_lt]
  constructor
  · rintro (⟨hk, he⟩ | ⟨⟨hmem, hfresh⟩, hne⟩)
    · exact Or.inl ⟨hk, he⟩
    · exact Or.inr ⟨hmem, hne, hfresh⟩
  · rintro (⟨hk, he⟩ | ⟨hmem, hne, hfresh⟩)
    · exact Or.inl ⟨hk, he⟩
    · exact Or.inr ⟨⟨hmem, hfresh⟩, hne⟩

/-- Witness cache for C7: 1001 entries keyed `"0"` … `"1000"`; the
first five were stored at time 0 (age 400 > TTL at `now = 400`), the
rest at time 100 (age 300 = TTL, still fresh). -/
def sweepWitnessCache : Server.Cache :=
  (List.range 1001).map
    (fun i => (Nat.repr i,
      { result := { articles := [], total := 0 },
        timestamp := if i < 5 then 0 else 100 }))

set_option maxRecDepth 100000 in
/-- Witness for C7: the 1001-entry cache with exactly 5 expired
entries, receiving one more store, ends with the expired entry gone,
the fresh ones kept, the new entry present — 997 entries in total. -/
theorem cache_sweep_exact_witness :
    sweepWitnessCache.length = 1001 ∧
    ("0", (⟨⟨[], 0⟩, 0⟩ : Server.CacheEntry)) ∈ sweepWitnessCache ∧
    ¬ (("0", (⟨⟨[], 0⟩, 0⟩ : Server.CacheEntry)) ∈
        Server.cacheResult sweepWitnessCache 400 "new" { articles := [], total := 9 }) ∧
    ("5", (⟨⟨[], 0⟩, 100⟩ : Server.CacheEntry)) ∈
      Server.cacheResult sweepWitnessCache 400 "new" { articles := [], total := 9 } ∧
    ("new", (⟨⟨[], 9⟩, 400⟩ : Server.CacheEntry)) ∈
      Server.cacheResult sweepWitnessCache 400 "new" { articles := [], total := 9 } ∧
    (Server.cacheResult sweepWitnessCache 400 "new"
      { articles := [], total := 9 }).length = 997 := by
  have hlen : sweepWitnessCache.length > 1000 := by
    simp only [sweepWitnessCache, List.length_map, List.length_range]
    omega
  have h := cache_sweep_exact sweepWitnessCache 400 "new"
    { articles := [], total := 9 } hlen
  refine ⟨?_, by decide, ?_, ?_, ?_, by decide⟩
  · simp only [sweepWitnessCache, List.length_map, List.length_range]
  · rw [h]
    rintro (⟨hk, -⟩ | ⟨-, -, hfr⟩)
    · exact absurd hk (by decide)
    · exact absurd hfr (by decide)
  · exact (h "5" ⟨⟨[], 0⟩, 100⟩).mpr (Or.inr ⟨by decide, by decide, by decide⟩)
  · exact (h "new" ⟨⟨[], 9⟩, 400⟩).mpr (Or.inl ⟨rfl, rfl⟩)

/-- **C8, counterexample.** `searchElasticsearch` never inspects the
HTTP status of the engine's reply: a non-success reply (status 500)
whose JSON error body decodes to a zero-valued `SearchResponse` is
returned as a successful empty result *and cached* — contradicting the
claim that a transport error (which, per the taxonomy, includes
non-success status) is returned to the caller with no cache entry
added. -/
theorem engine_status_cached_counterexample :
    (Server.searchElasticsearch [] 0
      (.reply 500 (.ok { totalValue := 0, sources := [] })) "q" 0 10).1 =
      .ok ([], 0) ∧
    ("q-0-10", ({ result := { articles := [], total := 0 }, timestamp := 0 } :
        Server.CacheEntry)) ∈
      (Server.searchElasticsearch [] 0
        (.reply 500 (.ok { totalValue := 0, sources := [] })) "q" 0 10).2 := by
  exact ⟨rfl, List.mem_singleton.mpr rfl⟩

/-- **C8, amended.** On a cache miss, an error of the HTTP request
itself (`client.Post` failing) or a JSON decode error is propagated to
the caller and no entry is added to the cache (the preceding lookup can
only have lazily deleted an expired entry); a non-success HTTP status,
however, is not detected by the code. -/
theorem engine_error_uncached (c : Server.Cache) (now : Nat) (q : String)
    (frm size : Int) (e : String) (st : Nat)
    (hmiss : (Server.getCachedResult c now (Server.cacheKey q frm size)).1 = none) :
    ((Server.searchElasticsearch c now (.postError e) q frm size).1 = .error e ∧
      ∀ p, p ∈ (Server.searchElasticsearch c now (.postError e) q frm size).2 →
        p ∈ c) ∧
    ((Server.searchElasticsearch c now (.reply st (.error e)) q frm size).1 = .error e ∧
      ∀ p, p ∈ (Server.searchElasticsearch c now (.reply st (.error e)) q frm size).2 →
        p ∈ c) := by
  rcases hg : Server.getCachedResult c now (Server.cacheKey q frm size) with ⟨o, c1⟩
  rw [hg] at hmiss
  simp only at hmiss
  subst hmiss
  have hsub : ∀ p, p ∈ c1 → p ∈ c := by
    intro p hp
    exact Server.getCachedResult_snd_subset c now (Server.cacheKey q frm size) p
      (by rw [hg]; exact hp)
  constructor
  · constructor
    · simp [Server.searchElasticsearch, hg]
    · intro p hp
      refine hsub p ?_
      simpa [Server.searchElasticsearch, hg] using hp
  · constructor
    · simp [Server.searchElasticsearch, hg]
    · intro p hp
      refine hsub p ?_
      simpa [Server.searchElasticsearch, hg] using hp

/-- Witness for the amended C8: on an empty cache, a failed post and a
failed decode are both surfaced as errors and the cache stays empty. -/
theorem engine_error_uncached_witness :
    (Server.searchElasticsearch [] 0 (.postError "dial tcp: refused") "q" 0 10).1 =
      .error "dial tcp: refused" ∧
    (Server.searchElasticsearch [] 0
      (.reply 503 (.error "invalid character")) "q" 0 10).1 =
      .error "invalid character" ∧
    ¬ (("q-0-10", ({ result := { articles := [], total := 0 }, timestamp := 0 } :
          Server.CacheEntry)) ∈
        (Server.searchElasticsearch [] 0 (.postError "dial tcp: refused") "q" 0 10).2) := by
  have h := engine_error_uncached [] 0 "q" 0 10 "dial tcp: refused" 503 rfl
  have h2 := engine_error_uncached [] 0 "q" 0 10 "invalid character" 503 rfl
  exact ⟨h.1.1, h2.2.1,
    fun hmem => List.not_mem_nil _ (h.1.2 _ hmem)⟩

/-! ## Query compiler claims -/

/-- **C5.** Phrase-vs-blended dispatch of `buildEnhancedQuery`: a query
the code detects as quoted compiles to the strict phrase request on the
quote-trimmed text — exact phrase against `title^3` and `body^1`,
sorted by score then `updated_at` descending, highlighting both
fields — while any other query compiles to the blended request whose
`bool.should` holds exactly the phrase / fuzzy / phrase-prefix
strategies with `minimum_should_match` 1 and whose score is multiplied
by the 30-day Gaussian recency decay. -/
theorem query_compiler_phrase_vs_blended (q : String) (frm size : Int) :
    (Server.isPhraseQuery q = true →
      Server.buildEnhancedQuery q frm size =
        Server.buildPhraseQuery (GoStr.trimChar q '"') frm size) ∧
    (Server.isPhraseQuery q = false →
      Server.buildEnhancedQuery q frm size = Server.buildBlendedQuery q frm size) ∧
    Server.jPath (Server.buildPhraseQuery (GoStr.trimChar q '"') frm size)
      ["query", "multi_match"] =
      some (.obj [("query", .s (GoStr.trimChar q '"')),
                  ("fields", .arr [.s "title^3", .s "body^1"]),
                  ("type", .s "phrase")]) ∧
    Server.jGet (Server.buildPhraseQuery (GoStr.trimChar q '"') frm size) "sort" =
      some (.arr [.obj [("_score", .obj [("order", .s "desc")])],
                  .obj [("updated_at", .obj [("order", .s "desc")])]]) ∧
    Server.jPath (Server.buildPhraseQuery (GoStr.trimChar q '"') frm size)
      ["highlight", "fields"] =
      some (.obj [("title", .obj []), ("body", .obj [])]) ∧
    Server.jPath (Server.buildBlendedQuery q frm size)
      ["query", "function_score", "query", "bool"] =
      some (.obj
        [("should", .arr
            [.obj [("multi_match", .obj
                [("query", .s q),
                 ("fields", .arr [.s "title^5", .s "body^2"]),
                 ("type", .s "phrase"),
                 ("boost", .n 10)])],
             .obj [("multi_match", .obj
                [("query", .s q),
                 ("fields", .arr [.s "title^3", .s "body^1"]),
                 ("fuzziness", .s "AUTO"),
                 ("boost", .n 5)])],
             .obj [("multi_match", .obj
                [("query", .s q),
                 ("fields", .arr [.s "title^2", .s "body^1"]),
                 ("type", .s "phrase_prefix"),
                 ("boost", .n 3)])]]),
         ("minimum_should_match", .n 1)]) ∧
    Server.jPath (Server.buildBlendedQuery q frm size)
      ["query", "function_score", "boost_mode"] = some (.s "multiply") ∧
    Server.jPath (Server.buildBlendedQuery q frm size)
      ["query", "function_score", "functions"] =
      some (.arr
        [.obj [("gauss", .obj
            [("updated_at", .obj
                [("scale", .s "30d"),
                 ("decay", .n ((5 : ℚ) / 10))])]),
               ("weight", .n ((12 : ℚ) / 10))]]) := by
  refine ⟨fun h => ?_, fun h => ?_, rfl, rfl, rfl, rfl, rfl, rfl⟩
  · simp [Server.buildEnhancedQuery, h]
  · simp [Server.buildEnhancedQuery, h]

/-- Witness for C5, the spec's own example pair:
`compile("\"exact phrase\"", 0, 10)` is the strict phrase request for
the unquoted text and `compile("exact phrase", 0, 10)` is the blended
request. -/
theorem query_compiler_phrase_vs_blended_witness :
    Server.buildEnhancedQuery "\"exact phrase\"" 0 10 =
      Server.buildPhraseQuery "exact phrase" 0 10 ∧
    Server.buildEnhancedQuery "exact phrase" 0 10 =
      Server.buildBlendedQuery "exact phrase" 0 10 := by
  have h1 := (query_compiler_phrase_vs_blended "\"exact phrase\"" 0 10).1 rfl
  have h2 := (query_compiler_phrase_vs_blended "exact phrase" 0 10).2.1 rfl
  exact ⟨h1, h2⟩

/-- If dropping from the front of `m` is a no-op, it stays a no-op
after dropping from the back. -/
theorem dropWhile_rdropWhile_eq_self (p : Char → Bool) (m : List Char)
    (hm : List.dropWhile p m = m) :
    List.dropWhile p (List.rdropWhile p m) = List.rdropWhile p m := by
  rw [List.dropWhile_eq_self_iff] at hm ⊢
  intro h
  have hpre : List.rdropWhile p m <+: m := List.rdropWhile_prefix p m
  have hlen : 0 < m.length := Nat.lt_of_lt_of_le h hpre.length_le
  have hg : (List.rdropWhile p m).get ⟨0, h⟩ = m.get ⟨0, hlen⟩ := by
    simpa [List.get_eq_getElem] using hpre.getElem h
  rw [hg]
  exact hm hlen

/-- `strings.Trim(·, "\"")` is idempotent: it already removes *all*
leading and trailing cutset characters. -/
theorem trimCharList_idem (c : Char) (l : List Char) :
    GoStr.trimCharList c (GoStr.trimCharList c l) = GoStr.trimCharList c l := by
  show List.rdropWhile (fun x => x == c)
      (List.dropWhile (fun x => x == c)
        (List.rdropWhile (fun x => x == c)
          (List.dropWhile (fun x => x == c) l))) =
    List.rdropWhile (fun x => x == c) (List.dropWhile (fun x => x == c) l)
  rw [dropWhile_rdropWhile_eq_self (fun x => x == c) _
    (List.dropWhile_idempotent (fun x => x == c) l)]
  exact List.rdropWhile_idempotent _ _

/-- String form of `trimCharList_idem`. -/
theorem trimChar_idem (q : String) (c : Char) :
    GoStr.trimChar (GoStr.trimChar q c) c = GoStr.trimChar q c :=
  congrArg String.mk (trimCharList_idem c q.toList)

/-- **C10.** Edge cases of phrase detection: the compiler classifies as
a phrase query exactly the strings that both begin and end with a
double quote — including the single character `"`, which compiles to
the strict phrase request for the empty string — and the trim removes
*all* leading and trailing quote characters (it is idempotent), so a
doubly quoted query compiles to the fully unquoted phrase request. -/
theorem phrase_detection_edge_cases (q : String) (frm size : Int) :
    Server.isPhraseQuery q =
      (GoStr.hasPrefix q "\"" && GoStr.hasSuffix q "\"") ∧
    (GoStr.hasPrefix q "\"" = true → GoStr.hasSuffix q "\"" = true →
      Server.buildEnhancedQuery q frm size =
        Server.buildPhraseQuery (GoStr.trimChar q '"') frm size) ∧
    Server.buildEnhancedQuery "\"" frm size = Server.buildPhraseQuery "" frm size ∧
    Server.buildEnhancedQuery "\"\"exact phrase\"\"" frm size =
      Server.buildPhraseQuery "exact phrase" frm size ∧
    GoStr.trimChar (GoStr.trimChar q '"') '"' = GoStr.trimChar q '"' := by
  refine ⟨rfl, fun h1 h2 => ?_, rfl, rfl, trimChar_idem q _⟩
  simp [Server.buildEnhancedQuery, Server.isPhraseQuery, h1, h2]

/-- Witness for C10 at the quoted query `"\"abc\""`. -/
theorem phrase_detection_edge_cases_witness :
    Server.buildEnhancedQuery "\"abc\"" 0 10 = Server.buildPhraseQuery "abc" 0 10 ∧
    Server.buildEnhancedQuery "\"" 0 10 = Server.buildPhraseQuery "" 0 10 ∧
    GoStr.trimChar (GoStr.trimChar "\"abc\"" '"') '"' = GoStr.trimChar "\"abc\"" '"' := by
  have h := phrase_detection_edge_cases "\"abc\"" 0 10
  exact ⟨h.2.1 rfl rfl, h.2.2.1, h.2.2.2.2⟩

/-! ## Fetch worker validation claim -/

/-- **C4.** The validation gate of `scrapeFullArticle`: every article
leaving the worker on the success path has a non-empty title distinct
from the placeholder sentinels and a non-empty body; and a page whose
only title candidates are a placeholder banner is reported as the
no-title failure even when a valid body was extracted. -/
theorem scrape_validation_gate :
    (∀ (url : String) (page : Crawler.PageData) (nowStr : String) (a : Crawler.Article),
      Crawler.scrapeFullArticle url page nowStr = .ok a →
      a.title ≠ "" ∧ a.title ≠ "How can we help?" ∧ a.title ≠ "Knowledge Base" ∧
        a.body ≠ "") ∧
    (∀ (url body nowStr t : String),
      (t = "How can we help?" ∨ t = "Knowledge Base") →
      Crawler.scrapeFullArticle url
        { headerTexts := [t], fallbackTitles := [("", t)], bodyCandidates := [body],
          fallbackBodies := [], timestamps := [], visitError := none,
          scrapeError := none } nowStr =
        .error "no meaningful title found on page") := by
  constructor
  · intro url page nowStr a h
    obtain ⟨hts, fts, bcs, fbs, tss, ve, se⟩ := page
    cases ve with
    | some e => simp [Crawler.scrapeFullArticle] at h
    | none =>
      cases se with
      | some e => simp [Crawler.scrapeFullArticle] at h
      | none =>
        simp only [Crawler.scrapeFullArticle] at h
        split at h
        next hcond => cases h
        next hcond =>
          split at h
          next hbody => cases h
          next hbody =>
            simp only [Bool.or_eq_true, decide_eq_true_eq, not_or] at hcond
            injection h with h2
            subst h2
            exact ⟨hcond.1.1, hcond.1.2, hcond.2, by simpa using hbody⟩
  · intro url body nowStr t ht
    rcases ht with h | h <;> subst h <;> rfl

/-- Witness for C4: a page with a real title and body passes the gate
with all invariants, and a page whose only title candidate is the
placeholder banner `How can we help?` fails with the no-title error
despite its valid body. -/
theorem scrape_validation_gate_witness :
    (("Real Title" : String) ≠ "" ∧ ("Real Title" : String) ≠ "How can we help?" ∧
      ("Real Title" : String) ≠ "Knowledge Base" ∧ ("bodytext" : String) ≠ "") ∧
    Crawler.scrapeFullArticle "https://x/hc/en-us/articles/123-t"
      { headerTexts := ["How can we help?"], fallbackTitles := [("", "How can we help?")],
        bodyCandidates := ["bodytext"], fallbackBodies := [], timestamps := [],
        visitError := none, scrapeError := none } "T" =
      .error "no meaningful title found on page" := by
  refine ⟨?_, scrape_validation_gate.2 "https://x/hc/en-us/articles/123-t" "bodytext"
    "T" "How can we help?" (Or.inl rfl)⟩
  exact scrape_validation_gate.1 "https://x/hc/en-us/articles/123-t"
    { headerTexts := ["Real Title"], fallbackTitles := [], bodyCandidates := ["bodytext"],
      fallbackBodies := [], timestamps := [], visitError := none, scrapeError := none }
    "T"
    { id := "123", title := "Real Title", body := "bodytext",
      url := "https://x/hc/en-us/articles/123-t", createdAt := "T", updatedAt := "T" }
    rfl

/-! ## Concurrency bound claim -/

namespace Crawler

/-- Effect of overwriting position `i` on the in-flight count. -/
theorem countInFlight_set (l : List Phase) :
    ∀ (i : Nat) (hi : i < l.length) (x : Phase),
      countInFlight (l.set i x) +
        (if l.get ⟨i, hi⟩ == Phase.inFlight then 1 else 0) =
      countInFlight l + (if x == Phase.inFlight then 1 else 0) := by
  induction l with
  | nil =>
    intro i hi x
    simp at hi
  | cons a t ih =>
    intro i hi x
    cases i with
    | zero =>
      simp only [List.set_cons_zero, countInFlight, List.countP_cons, List.get]
      omega
    | succ n =>
      have hn : n < t.length := by simpa using hi
      have hrec := ih n hn x
      simp only [List.set_cons_succ, countInFlight, List.countP_cons, List.get] at hrec ⊢
      omega

end Crawler

/-- **C1.** In every state reachable from the start of a crawl with
semaphore capacity `N`, at most `N` fetch workers are simultaneously
in flight, regardless of the number of targets: the counting admission
gate never admits a pending worker while `N` slots are held. -/
theorem fetch_concurrency_bounded (N : Nat) (targets : List String)
    (s : List Crawler.Phase)
    (h : Crawler.Reach N (Crawler.initPhases targets) s) :
    Crawler.countInFlight s ≤ N := by
  have h0 : Crawler.countInFlight (Crawler.initPhases targets) = 0 := by
    induction targets with
    | nil => rfl
    | cons a t ih =>
      simpa [Crawler.initPhases, Crawler.countInFlight, List.countP_cons] using ih
  induction h with
  | refl => omega
  | @tail b c hr hs ih =>
    cases hs with
    | acquire i hi hp hn =>
      have hset := Crawler.countInFlight_set b i hi Crawler.Phase.inFlight
      rw [hp] at hset
      simp only [beq_self_eq_true, if_true, beq_iff_eq, reduceCtorEq, if_false] at hset
      omega
    | release i hi hp =>
      have hset := Crawler.countInFlight_set b i hi Crawler.Phase.done
      rw [hp] at hset
      simp only [beq_self_eq_true, if_true, beq_iff_eq, reduceCtorEq, if_false] at hset
      omega

/-- Witness for C1: with capacity `N = 2` and three targets, the state
after two admissions (two workers in flight, one still pending) is
reachable and respects the bound. -/
theorem fetch_concurrency_bounded_witness :
    Crawler.countInFlight
      [Crawler.Phase.inFlight, Crawler.Phase.inFlight, Crawler.Phase.pending] ≤ 2 := by
  have step1 : Crawler.SemStep 2
      [Crawler.Phase.pending, Crawler.Phase.pending, Crawler.Phase.pending]
      [Crawler.Phase.inFlight, Crawler.Phase.pending, Crawler.Phase.pending] :=
    Crawler.SemStep.acquire _ 0 (by decide) (by decide) (by decide)
  have step2 : Crawler.SemStep 2
      [Crawler.Phase.inFlight, Crawler.Phase.pending, Crawler.Phase.pending]
      [Crawler.Phase.inFlight, Crawler.Phase.inFlight, Crawler.Phase.pending] :=
    Crawler.SemStep.acquire _ 1 (by decide) (by decide) (by decide)
  exact fetch_concurrency_bounded 2 ["a", "b", "c"] _
    (Crawler.Reach.tail (Crawler.Reach.tail (Crawler.Reach.refl _) step1) step2)
